import Mathlib

/-
A verification development for the Matrix_Path visualizer core:
the eigendecomposition matrix evaluator and its per-instance cache
(src/utils/mathUtils.ts), the sampling planner, the path builder,
the matrix preparation (scale / power / normalize) step and the wall
contact detector (the App component).

Numbers are embedded as exact rationals; JavaScript's non-finite
values (NaN and the infinities) are represented explicitly by the
`JsNum` type at the two places where the source checks
`Number.isFinite`.  External calls into the `mathjs` library that can
throw (`math.eigs`, `math.inv`) are modelled by the `ExtCall` type,
and the transcendental scalar functions (`math.pow` on eigenvalues,
`Math.cbrt`) are passed in as explicit function parameters; every
other definition is translated directly from the source.
-/

namespace MatrixPath

/-- A JavaScript number: either a finite value (an exact rational in this
embedding) or one of the non-finite values `NaN`, `+Infinity`, `-Infinity`. -/
inductive JsNum where
  | nan
  | posInf
  | negInf
  | fin (q : ℚ)
deriving DecidableEq

/-- `Number.isFinite`. -/
def JsNum.isFinite : JsNum → Bool
  | .fin _ => true
  | _ => false

-- ------------------------------------------------------------------
-- Sampling Planner (src/unnamed/part_000, `samplingConfig`, lines 425-442)
-- ------------------------------------------------------------------

/-- `PATH_RESOLUTION = 100` (number of steps per unit of `t`). -/
def PATH_RESOLUTION : ℚ := 100

/-- The sanitized precision:
`Number.isFinite(tPrecision) && tPrecision > 0 ? tPrecision : 0.01`. -/
def samplingSafePrecision : JsNum → ℚ
  | .fin q => if 0 < q then q else 1 / 100
  | _ => 1 / 100

/-- Whether the requested precision is a finite positive number (the guard
tested by the source before substituting the 0.01 default). -/
def isPositiveFinite : JsNum → Bool
  | .fin q => decide (0 < q)
  | _ => false

/-- The record produced by the `samplingConfig` memo. -/
structure SamplingResult where
  times : List ℚ
  range : ℚ
  totalSteps : ℕ
deriving DecidableEq

/-- The sampling planner (`samplingConfig`): effective step is the sanitized
precision capped at `1 / PATH_RESOLUTION`; a non-positive range produces an
empty sequence; otherwise `totalSteps = max 1 ⌈range / effectiveStep⌉` and the
`i`-th of the `totalSteps + 1` sample times is
`startT + (i / totalSteps) * range`. -/
def samplingConfig (startT endT : ℚ) (tPrecision : JsNum) : SamplingResult :=
  let range := endT - startT
  let safePrecision := samplingSafePrecision tPrecision
  let baseStep : ℚ := 1 / PATH_RESOLUTION
  let effectiveStep := min safePrecision baseStep
  if range ≤ 0 then
    { times := [], range := range, totalSteps := 0 }
  else
    let totalSteps := max 1 (⌈range / effectiveStep⌉.toNat)
    { times := (List.range (totalSteps + 1)).map
        (fun (i : ℕ) => startT + ((i : ℚ) / (totalSteps : ℚ)) * range),
      range := range,
      totalSteps := totalSteps }

/-- The full contract of the sampling planner for a finite positive precision
`p`: empty sequence iff the range is non-positive, otherwise `steps + 1`
evenly spaced samples with `steps = max 1 ⌈(endT - startT) / min p (1/100)⌉`,
first sample `startT` and last sample exactly `endT`. -/
def SamplingSpec (startT endT p : ℚ) : Prop :=
  (endT ≤ startT → (samplingConfig startT endT (JsNum.fin p)).times = []) ∧
  (startT < endT →
    (samplingConfig startT endT (JsNum.fin p)).times.length
        = max 1 (⌈(endT - startT) / min p (1 / 100)⌉.toNat) + 1 ∧
    (∀ i : ℕ, i < (samplingConfig startT endT (JsNum.fin p)).times.length →
      (samplingConfig startT endT (JsNum.fin p)).times[i]? =
        some (startT +
          ((i : ℚ) / ((max 1 (⌈(endT - startT) / min p (1 / 100)⌉.toNat) : ℕ) : ℚ))
            * (endT - startT))) ∧
    (samplingConfig startT endT (JsNum.fin p)).times.head? = some startT ∧
    (samplingConfig startT endT (JsNum.fin p)).times.getLast? = some endT)

-- ------------------------------------------------------------------
-- Scalars, vectors and 3x3 matrices (src/types: Matrix3, Vector3;
-- mathjs values may be complex, modelled as rational pairs)
-- ------------------------------------------------------------------

/-- A complex scalar with rational components (a `math.Complex` value). -/
structure CQ where
  re : ℚ
  im : ℚ
deriving DecidableEq

/-- Complex addition. -/
def cAdd (a b : CQ) : CQ := ⟨a.re + b.re, a.im + b.im⟩

/-- Complex multiplication. -/
def cMul (a b : CQ) : CQ := ⟨a.re * b.re - a.im * b.im, a.re * b.im + a.im * b.re⟩

/-- `toReal` (src/utils/mathUtils.ts): project a possibly complex value to its
real component. -/
def toReal (v : CQ) : ℚ := v.re

/-- A real 3D vector (`Vector3`, an ordered triple). -/
structure V3 where
  x : ℚ
  y : ℚ
  z : ℚ
deriving DecidableEq

/-- A real 3x3 row-major matrix (`Matrix3`). -/
structure M3 where
  r0 : V3
  r1 : V3
  r2 : V3
deriving DecidableEq

/-- A complex 3D vector. -/
structure CV3 where
  x : CQ
  y : CQ
  z : CQ
deriving DecidableEq

/-- A complex 3x3 row-major matrix. -/
structure CM3 where
  r0 : CV3
  r1 : CV3
  r2 : CV3
deriving DecidableEq

/-- Complex dot product of two row/column triples. -/
def cDot (a b : CV3) : CQ := cAdd (cAdd (cMul a.x b.x) (cMul a.y b.y)) (cMul a.z b.z)

/-- `math.transpose` on a 3x3 complex matrix. -/
def transposeC (m : CM3) : CM3 :=
  ⟨⟨m.r0.x, m.r1.x, m.r2.x⟩, ⟨m.r0.y, m.r1.y, m.r2.y⟩, ⟨m.r0.z, m.r1.z, m.r2.z⟩⟩

/-- `math.multiply` on two 3x3 complex matrices. -/
def matMulC (a b : CM3) : CM3 :=
  let bt := transposeC b
  ⟨⟨cDot a.r0 bt.r0, cDot a.r0 bt.r1, cDot a.r0 bt.r2⟩,
   ⟨cDot a.r1 bt.r0, cDot a.r1 bt.r1, cDot a.r1 bt.r2⟩,
   ⟨cDot a.r2 bt.r0, cDot a.r2 bt.r1, cDot a.r2 bt.r2⟩⟩

/-- `math.diag`: the diagonal matrix of a value triple. -/
def diagC (d : CV3) : CM3 :=
  ⟨⟨d.x, ⟨0, 0⟩, ⟨0, 0⟩⟩, ⟨⟨0, 0⟩, d.y, ⟨0, 0⟩⟩, ⟨⟨0, 0⟩, ⟨0, 0⟩, d.z⟩⟩

/-- Entry-wise projection of a complex matrix to its real components
(`resultArray.map(row => row.map(toReal))`). -/
def toRealM (m : CM3) : M3 :=
  ⟨⟨toReal m.r0.x, toReal m.r0.y, toReal m.r0.z⟩,
   ⟨toReal m.r1.x, toReal m.r1.y, toReal m.r1.z⟩,
   ⟨toReal m.r2.x, toReal m.r2.y, toReal m.r2.z⟩⟩

-- ------------------------------------------------------------------
-- Eigendecomposition evaluator (src/utils/mathUtils.ts)
-- ------------------------------------------------------------------

/-- The interpolation mode, i.e. the cache key produced by `optionKey`:
`options?.linearEigenInterpolation ? 'linear' : 'pow'`. -/
inductive Mode where
  | linear
  | pow
deriving DecidableEq

/-- `interpolateEigenvalue`: in linear mode `(1 - t) + t * value`
(`math.add(math.multiply(value, t), math.multiply(1 - t, 1))`); in power mode
`math.pow(value, t)`, a transcendental library call passed in as `powFn`. -/
def interpolateEigenvalue (powFn : CQ → ℚ → CQ) (value : CQ) (t : ℚ) (mode : Mode) : CQ :=
  match mode with
  | .linear => cAdd (cMul value ⟨t, 0⟩) ⟨1 - t, 0⟩
  | .pow => powFn value t

/-- The data captured by a successfully constructed evaluator closure:
the eigenvalue triple, `P` (columns = eigenvectors) and `Pinv`. -/
structure EvalData where
  eigenValues : CV3
  P : CM3
  Pinv : CM3

/-- The outcome of a call into the `mathjs` library that may throw. -/
inductive ExtCall (α : Type) where
  | throws
  | ok (value : α)

/-- The record returned by `math.eigs`: either field may be absent. -/
structure EigsData where
  values : Option CV3
  eigenvectors : Option CM3

/-- `createMatrixEvaluator`: the whole body runs inside `try/catch`, so a
throwing `math.eigs` (eigendecomposition does not converge) or a throwing
`math.inv` (singular `P`) yields `null`; missing `values`/`eigenvectors`
yield `null` explicitly; otherwise `P` is the transpose of the eigenvector
row array and the evaluator data is returned.  The `ExtCall` results of the
two library calls are the function's parameters; returning `none` instead of
raising models the catch-all boundary. -/
def createMatrixEvaluator (eigsCall : ExtCall EigsData) (invCall : CM3 → ExtCall CM3) :
    Option EvalData :=
  match eigsCall with
  | .throws => none
  | .ok eigs =>
    match eigs.values, eigs.eigenvectors with
    | some eigenValues, some eigenvectorArrays =>
      let P := transposeC eigenvectorArrays
      match invCall P with
      | .throws => none
      | .ok Pinv => some ⟨eigenValues, P, Pinv⟩
    | _, _ => none

/-- Quantization to 6 decimal digits: `Number(t.toFixed(6))` for a finite
`t` (round to nearest; a tie picks the larger value). -/
def toFixed6 (q : ℚ) : ℚ := ((⌊q * 1000000 + 1 / 2⌋ : ℤ) : ℚ) / 1000000

/-- `timeKey`: `Number.isFinite(t) ? Number(t.toFixed(6)) : NaN`. -/
def timeKey (t : JsNum) : JsNum :=
  match t with
  | .fin q => .fin (toFixed6 q)
  | _ => .nan

/-- Lookup in an insertion-ordered association list (JS `Map.get`). -/
def assocGet {α β : Type} [DecidableEq α] : List (α × β) → α → Option β
  | [], _ => none
  | (k, v) :: rest, key => if key = k then some v else assocGet rest key

/-- Insert/update in an insertion-ordered association list (JS `Map.set`):
an existing key is updated in place, a new key is appended. -/
def assocSet {α β : Type} [DecidableEq α] : List (α × β) → α → β → List (α × β)
  | [], key, val => [(key, val)]
  | (k, v) :: rest, key, val =>
      if key = k then (key, val) :: rest else (k, v) :: assocSet rest key val

/-- The per-mode time cache (`Map<number, Matrix3>`). -/
abbrev TimeCache := List (ℚ × M3)

/-- The evaluator cache (`Map<string, Map<number, Matrix3>>`). -/
abbrev Cache := List (Mode × TimeCache)

/-- The matrix computed on a cache miss: interpolate each eigenvalue at the
RAW (unquantized) `t`, form `Dt = diag(...)`, reconstruct `P * Dt * Pinv`
and drop imaginary parts.  (The source's defensive check that the product
has a `toArray` method cannot fire in a typed embedding: `math.multiply` of
two matrices is a matrix.) -/
def computeMatrix (powFn : CQ → ℚ → CQ) (ev : EvalData) (t : ℚ) (mode : Mode) : M3 :=
  let diagValues : CV3 :=
    ⟨interpolateEigenvalue powFn ev.eigenValues.x t mode,
     interpolateEigenvalue powFn ev.eigenValues.y t mode,
     interpolateEigenvalue powFn ev.eigenValues.z t mode⟩
  let Dt := diagC diagValues
  let At := matMulC (matMulC ev.P Dt) ev.Pinv
  toRealM At

/-- `getOrCreateMatrix` (the closure exposed as `getMatrixAt`), with the
captured mutable cache threaded explicitly: ensure the per-mode map exists,
return `null` for non-finite `t` (whose `timeKey` is `NaN`), return the
stored matrix on a hit, otherwise compute, store under the quantized key and
return. -/
def getOrCreateMatrix (powFn : CQ → ℚ → CQ) (ev : EvalData) (cache : Cache)
    (t : JsNum) (mode : Mode) : Option M3 × Cache :=
  let optionCache := (assocGet cache mode).getD []
  let cache1 := if (assocGet cache mode).isSome then cache else assocSet cache mode optionCache
  match t with
  | .fin tq =>
      let tKey := toFixed6 tq
      match assocGet optionCache tKey with
      | some m => (some m, cache1)
      | none =>
          let realMatrix := computeMatrix powFn ev tq mode
          (some realMatrix, assocSet cache1 mode (assocSet optionCache tKey realMatrix))
  | _ => (none, cache1)

/-- The set of time-keyed entries of a cache, flattened across modes. -/
def timeEntries : Cache → List (Mode × ℚ × M3)
  | [] => []
  | (m, tc) :: rest => tc.map (fun e => (m, e.1, e.2)) ++ timeEntries rest

/-- The 3x3 complex identity, used to instantiate evaluator data in
concrete examples. -/
def idCM3 : CM3 :=
  ⟨⟨⟨1, 0⟩, ⟨0, 0⟩, ⟨0, 0⟩⟩, ⟨⟨0, 0⟩, ⟨1, 0⟩, ⟨0, 0⟩⟩, ⟨⟨0, 0⟩, ⟨0, 0⟩, ⟨1, 0⟩⟩⟩

/-- A concrete evaluator instance (eigenvalues 2, 3, 5 with `P = Pinv = I`)
used to instantiate cache theorems on concrete inputs. -/
def sampleEval : EvalData := ⟨⟨⟨2, 0⟩, ⟨3, 0⟩, ⟨5, 0⟩⟩, idCM3, idCM3⟩

-- ------------------------------------------------------------------
-- Wall contact detector (src/unnamed/part_000, inside the sceneData memo)
-- ------------------------------------------------------------------

/-- The axis tag of a wall (`Wall['axis']`). -/
inductive Axis where
  | x
  | y
  | z
deriving DecidableEq

/-- An axis-aligned wall: identity, axis and scalar position. -/
structure Wall where
  id : ℤ
  axis : Axis
  position : ℚ
deriving DecidableEq

/-- `CONTACT_TOLERANCE = 0.07`. -/
def CONTACT_TOLERANCE : ℚ := 7 / 100

/-- `axisAccess`: read the wall-axis coordinate of a point. -/
def axisAccess : Axis → V3 → ℚ
  | .x, v => v.x
  | .y, v => v.y
  | .z, v => v.z

/-- `setAxis`: overwrite the wall-axis coordinate of a point. -/
def setAxis (v : V3) (a : Axis) (value : ℚ) : V3 :=
  match a with
  | .x => { v with x := value }
  | .y => { v with y := value }
  | .z => { v with z := value }

/-- `THREE.MathUtils.clamp(value, lo, hi) = Math.max(lo, Math.min(hi, value))`. -/
def clamp (value lo hi : ℚ) : ℚ := max lo (min hi value)

/-- `THREE.Vector3.lerp`: `a + (b - a) * alpha` componentwise. -/
def lerpV (a b : V3) (alpha : ℚ) : V3 :=
  ⟨a.x + (b.x - a.x) * alpha, a.y + (b.y - a.y) * alpha, a.z + (b.z - a.z) * alpha⟩

/-- A wall contact event. -/
structure WallContact where
  wallId : ℤ
  axis : Axis
  position : ℚ
  point : V3
  normalDirection : ℤ
deriving DecidableEq

/-- `resolveNormalDirection`: sign of the primary offset when its magnitude
exceeds `1e-6`, else sign of the secondary offset (if present and beyond
noise), else `+1`. -/
def resolveNormalDirection (primary : ℚ) (secondary : Option ℚ) : ℤ :=
  if 1 / 1000000 < |primary| then (if 0 ≤ primary then 1 else -1)
  else
    match secondary with
    | some s => if 1 / 1000000 < |s| then (if 0 ≤ s then 1 else -1) else 1
    | none => 1

/-- `computeContact`: current-point tolerance hit, then previous-point
tolerance hit, then sign-crossing interpolation guarded by the near-parallel
denominator check. -/
def computeContact (wall : Wall) (current : V3) (previous : Option V3) :
    Option WallContact :=
  let currentValue := axisAccess wall.axis current
  let diffCurrent := currentValue - wall.position
  if |diffCurrent| ≤ CONTACT_TOLERANCE then
    let contactPoint := setAxis current wall.axis wall.position
    let normalDirection := resolveNormalDirection diffCurrent
      (previous.map (fun p => axisAccess wall.axis p - wall.position))
    some ⟨wall.id, wall.axis, wall.position, contactPoint, normalDirection⟩
  else
    match previous with
    | none => none
    | some prev =>
      let prevValue := axisAccess wall.axis prev
      let diffPrev := prevValue - wall.position
      if |diffPrev| ≤ CONTACT_TOLERANCE then
        let contactPoint := setAxis prev wall.axis wall.position
        let normalDirection := resolveNormalDirection diffPrev (some diffCurrent)
        some ⟨wall.id, wall.axis, wall.position, contactPoint, normalDirection⟩
      else if diffPrev * diffCurrent < 0 then
        let denominator := currentValue - prevValue
        if 1 / 100000000 < |denominator| then
          let crossFrac := (wall.position - prevValue) / denominator
          let clampedFrac := clamp crossFrac 0 1
          let contactPoint := setAxis (lerpV prev current clampedFrac) wall.axis wall.position
          let normalDirection := resolveNormalDirection diffCurrent (some diffPrev)
          some ⟨wall.id, wall.axis, wall.position, contactPoint, normalDirection⟩
        else none
      else none

/-- The crossing-direction sign as the specification words it, defined from
the spec (not from the source): `+1` when the determining signed offset lies
beyond the `1e-6` noise threshold on the positive side of the wall
(approaching from the positive side), `-1` when it lies beyond noise on the
negative side, and — when the primary offset is within near-zero magnitude —
the same rule applied to the secondary offset, resolving to `+1` by the
documented tie-break when that too is within noise (or absent). -/
def specSideSign (primary : ℚ) (secondary : Option ℚ) : ℤ :=
  if 1 / 1000000 < primary then 1
  else if primary < -(1 / 1000000) then -1
  else
    match secondary with
    | some s =>
        if 1 / 1000000 < s then 1
        else if s < -(1 / 1000000) then -1
        else 1
    | none => 1

/-- The claim's sign convention, determinate for every producible contact:
the detector's sign must equal `specSideSign` applied to the offsets of the
branch that fires, with the primary/secondary assignment the spec gives each
branch — the hit endpoint's offset for the tolerance branches (current-point
hit first, then previous-point hit, each falling back to the other
endpoint's offset) and the current offset (falling back to the previous
offset) for the sign-crossing branch.  This pins the sign uniquely: no
contact may carry the opposite sign. -/
def ContactSignSpec (wall : Wall) (current : V3) (previous : Option V3)
    (c : WallContact) : Prop :=
  let dC := axisAccess wall.axis current - wall.position
  match previous with
  | none => c.normalDirection = specSideSign dC none
  | some p =>
      let dP := axisAccess wall.axis p - wall.position
      c.normalDirection =
        (if |dC| ≤ CONTACT_TOLERANCE then specSideSign dC (some dP)
         else if |dP| ≤ CONTACT_TOLERANCE then specSideSign dP (some dC)
         else specSideSign dC (some dP))

-- ------------------------------------------------------------------
-- Real matrix arithmetic for the preparation step (mathjs calls on
-- real 3x3 matrices)
-- ------------------------------------------------------------------

/-- `multiplyMatrixVector` (src/utils/mathUtils.ts): row-major 3x3 matrix
times column vector. -/
def multiplyMatrixVector (matrix : M3) (vector : V3) : V3 :=
  ⟨matrix.r0.x * vector.x + matrix.r0.y * vector.y + matrix.r0.z * vector.z,
   matrix.r1.x * vector.x + matrix.r1.y * vector.y + matrix.r1.z * vector.z,
   matrix.r2.x * vector.x + matrix.r2.y * vector.y + matrix.r2.z * vector.z⟩

/-- Scale every entry of a matrix (`math.multiply(matrix, scalar)`). -/
def smulM (m : M3) (s : ℚ) : M3 :=
  ⟨⟨m.r0.x * s, m.r0.y * s, m.r0.z * s⟩,
   ⟨m.r1.x * s, m.r1.y * s, m.r1.z * s⟩,
   ⟨m.r2.x * s, m.r2.y * s, m.r2.z * s⟩⟩

/-- Divide every entry of a matrix (`math.divide(matrix, scalar)`). -/
def sdivM (m : M3) (s : ℚ) : M3 :=
  ⟨⟨m.r0.x / s, m.r0.y / s, m.r0.z / s⟩,
   ⟨m.r1.x / s, m.r1.y / s, m.r1.z / s⟩,
   ⟨m.r2.x / s, m.r2.y / s, m.r2.z / s⟩⟩

/-- Real dot product. -/
def rDot (a b : V3) : ℚ := a.x * b.x + a.y * b.y + a.z * b.z

/-- Transpose of a real 3x3 matrix. -/
def transposeM (m : M3) : M3 :=
  ⟨⟨m.r0.x, m.r1.x, m.r2.x⟩, ⟨m.r0.y, m.r1.y, m.r2.y⟩, ⟨m.r0.z, m.r1.z, m.r2.z⟩⟩

/-- `math.multiply` on two real 3x3 matrices. -/
def matMul (a b : M3) : M3 :=
  let bt := transposeM b
  ⟨⟨rDot a.r0 bt.r0, rDot a.r0 bt.r1, rDot a.r0 bt.r2⟩,
   ⟨rDot a.r1 bt.r0, rDot a.r1 bt.r1, rDot a.r1 bt.r2⟩,
   ⟨rDot a.r2 bt.r0, rDot a.r2 bt.r1, rDot a.r2 bt.r2⟩⟩

/-- The real 3x3 identity matrix. -/
def idM : M3 := ⟨⟨1, 0, 0⟩, ⟨0, 1, 0⟩, ⟨0, 0, 1⟩⟩

/-- `math.pow(matrix, n)`: iterated matrix product. -/
def matPow (m : M3) : ℕ → M3
  | 0 => idM
  | n + 1 => matMul (matPow m n) m

/-- `math.det` on a real 3x3 matrix. -/
def det3 (m : M3) : ℚ :=
  m.r0.x * (m.r1.y * m.r2.z - m.r1.z * m.r2.y)
    - m.r0.y * (m.r1.x * m.r2.z - m.r1.z * m.r2.x)
    + m.r0.z * (m.r1.x * m.r2.y - m.r1.y * m.r2.x)

/-- `Math.round`: round half toward positive infinity. -/
def jsRound (q : ℚ) : ℤ := ⌊q + 1 / 2⌋

-- ------------------------------------------------------------------
-- Matrix preparation (src/unnamed/part_000, `matrixPreparation` memo and
-- the normalization-warning effect, lines 337-418)
-- ------------------------------------------------------------------

/-- The record produced by the `matrixPreparation` memo.  (`toMatrix3`
conversion of entries is the identity on rationals, and the `catch` branch
is unreachable in the total embedding, so `error` is always `none`.) -/
structure MatrixPrep where
  matrix : Option M3
  adjustedMatrix : M3
  scalar : ℚ
  exponent : ℕ
  normalizationApplied : Bool
  normalizationFailed : Bool
  determinantBefore : ℚ
  determinantAfter : Option ℚ
  error : Option String
deriving DecidableEq

/-- `matrixPreparation`: sanitize scalar and exponent
(`Number.isFinite` holds for every rational, so the scalar guard is the
identity), scale then raise the matrix, and if normalization is requested
either skip it when `|det| < 1e-8` (recording the failure) or divide by the
cube root of `|det|` (an external real function, passed as `cbrt`). -/
def matrixPreparation (cbrt : ℚ → ℚ) (matrixA : M3) (matrixScalar matrixExponent : ℚ)
    (normalizeMatrix : Bool) : MatrixPrep :=
  let safeScalar := matrixScalar
  let safeExponent := (max 1 (jsRound matrixExponent)).toNat
  let scaledMatrix := smulM matrixA safeScalar
  let poweredMatrix := if safeExponent = 1 then scaledMatrix else matPow scaledMatrix safeExponent
  let adjustedMatrix := poweredMatrix
  let determinantBefore := det3 poweredMatrix
  if normalizeMatrix then
    if |determinantBefore| < 1 / 100000000 then
      { matrix := some adjustedMatrix, adjustedMatrix := adjustedMatrix,
        scalar := safeScalar, exponent := safeExponent,
        normalizationApplied := false, normalizationFailed := true,
        determinantBefore := determinantBefore, determinantAfter := none,
        error := none }
    else
      let detRoot := cbrt |determinantBefore|
      let normalizedMatrix := sdivM poweredMatrix detRoot
      { matrix := some normalizedMatrix, adjustedMatrix := adjustedMatrix,
        scalar := safeScalar, exponent := safeExponent,
        normalizationApplied := true, normalizationFailed := false,
        determinantBefore := determinantBefore,
        determinantAfter := some (det3 normalizedMatrix), error := none }
  else
    { matrix := some adjustedMatrix, adjustedMatrix := adjustedMatrix,
      scalar := safeScalar, exponent := safeExponent,
      normalizationApplied := false, normalizationFailed := false,
      determinantBefore := determinantBefore, determinantAfter := none,
      error := none }

/-- The normalization-warning effect: when normalization was requested and
failed, set the warning and reset the normalize flag; when it was applied,
clear the warning; otherwise leave both untouched.  Returns the new
`(normalizationWarning, normalizeMatrix)` state. -/
def normalizationEffect (normalizeMatrix : Bool) (prep : MatrixPrep)
    (prevWarning : Option String) : Option String × Bool :=
  if normalizeMatrix && prep.normalizationFailed then
    (some "Normalization requires a non-zero determinant. Matrix left unnormalized.", false)
  else if normalizeMatrix && prep.normalizationApplied then
    (none, normalizeMatrix)
  else
    (prevWarning, normalizeMatrix)

/-- A degenerate base matrix (determinant zero) used to instantiate the
normalization-failure theorem. -/
def degenerateA : M3 := ⟨⟨1, 0, 0⟩, ⟨0, 1, 0⟩, ⟨0, 0, 0⟩⟩

-- ------------------------------------------------------------------
-- Path builder (src/unnamed/part_000, `vectorTransformationsResult` memo,
-- lines 453-511)
-- ------------------------------------------------------------------

/-- A tracked vector (`VectorObject`). -/
structure VectorObject where
  id : ℤ
  value : V3
  visible : Bool
  color : String

/-- A per-vector trajectory: cached initial and final points plus the full
path (clones are identity in an immutable embedding). -/
structure Trajectory where
  initial : V3
  final : V3
  fullPath : List V3

/-- Element-wise application of the activation function
(`rawPoint.map(activationFn)`). -/
def applyFn (f : ℚ → ℚ) (v : V3) : V3 := ⟨f v.x, f v.y, f v.z⟩

/-- `vectorTransformationsResult`: the error cascade (preparation error,
activation error, unavailable evaluator, non-positive range, failed matrix
generation, a null sample) followed by the per-vector loop that builds the
full path, breaking the whole computation on the first failed vector.
`matrixSamples` is the upstream memo's value, passed in as in the source. -/
def vectorTransformationsResult (prepError : Option String)
    (activationError : Option String) (matrixEvaluator : Option EvalData)
    (range : ℚ) (matrixSamples : Option (List (Option M3)))
    (vectors : List VectorObject) (activationFn : ℚ → ℚ) :
    Option (List (ℤ × Trajectory)) × Option String :=
  match prepError with
  | some e => (none, some e)
  | none =>
  match activationError with
  | some e => (none, some ("Activation Function Error: " ++ e))
  | none =>
  match matrixEvaluator with
  | none => (none, some "Matrix unavailable.")
  | some _ =>
  if range ≤ 0 then
    (none, some "Animation End Time must be greater than Start Time.")
  else
  match matrixSamples with
  | none => (none, some "Matrix generation failed.")
  | some samples =>
  if samples.any (fun s => s.isNone) then
    (none, some "Matrix generation failed at specific time samples.")
  else
    let result := vectors.foldl (fun acc vector =>
      match acc with
      | none => none
      | some trs =>
        let fullPath := samples.foldl (fun pacc sample =>
          match pacc, sample with
          | none, _ => none
          | some _, none => none
          | some path, some m =>
              some (path ++ [applyFn activationFn (multiplyMatrixVector m vector.value)]))
          (some ([] : List V3))
        match fullPath with
        | none => none
        | some [] => none
        | some (p :: rest) =>
            some (trs ++ [(vector.id, ⟨p, (p :: rest).getLastD p, p :: rest⟩)]))
      (some ([] : List (ℤ × Trajectory)))
    match result with
    | none =>
        (none, some "Calculation Error: The matrix might be singular or non-diagonalizable.")
    | some trs => (some trs, none)

end MatrixPath

namespace MatrixPath

-- ------------------------------------------------------------------
-- Theorems: sampling planner claims
-- ------------------------------------------------------------------

/-- Unfolding of the `times` field of the planner on a positive range. -/
theorem samplingConfig_times_expand (startT endT : ℚ) (p : JsNum)
    (h : ¬ endT - startT ≤ 0) :
    (samplingConfig startT endT p).times =
      (List.range
          (max 1 (⌈(endT - startT) / min (samplingSafePrecision p) (1 / 100)⌉.toNat) + 1)).map
        (fun (i : ℕ) => startT +
          ((i : ℚ) /
            ((max 1 (⌈(endT - startT) / min (samplingSafePrecision p) (1 / 100)⌉.toNat) : ℕ) : ℚ))
          * (endT - startT)) := by
  simp only [samplingConfig, PATH_RESOLUTION, if_neg h]

/-- Unfolding of the `totalSteps` field of the planner on a positive range. -/
theorem samplingConfig_totalSteps_expand (startT endT : ℚ) (p : JsNum)
    (h : ¬ endT - startT ≤ 0) :
    (samplingConfig startT endT p).totalSteps =
      max 1 (⌈(endT - startT) / min (samplingSafePrecision p) (1 / 100)⌉.toNat) := by
  simp only [samplingConfig, PATH_RESOLUTION, if_neg h]

/-- The head of a map over an inclusive index range. -/
theorem head_of_map_range {β : Type} (n : ℕ) (f : ℕ → β) :
    ((List.range (n + 1)).map f).head? = some (f 0) := by
  rw [List.head?_map, List.range_succ_eq_map n]
  rfl

/-- The last element of a map over an inclusive index range. -/
theorem getLast_of_map_range {β : Type} (n : ℕ) (f : ℕ → β) :
    ((List.range (n + 1)).map f).getLast? = some (f n) := by
  rw [List.range_succ n, List.map_append, List.map_cons, List.map_nil]
  exact List.getLast?_concat _

/-- The planner's step count for `startT = 0`, `endT = 2`, `precision = 0.01`. -/
theorem steps_for_default_case :
    max 1 (⌈((2 : ℚ) - 0) / min (samplingSafePrecision (JsNum.fin (1 / 100))) (1 / 100)⌉.toNat)
      = 200 := by
  have h1 : samplingSafePrecision (JsNum.fin (1 / 100)) = 1 / 100 := by
    norm_num [samplingSafePrecision]
  rw [h1]
  have h2 : ((2 : ℚ) - 0) / min (1 / 100 : ℚ) (1 / 100) = ((200 : ℤ) : ℚ) := by
    rw [min_self]
    norm_num
  rw [h2, Int.ceil_intCast]
  rfl

/-- Claim C1 (counterexample): for `startT = 0`, `endT = 2`,
`precision = 0.01` the produced sample-time sequence does NOT contain
exactly 200 samples: the planner takes 200 steps and therefore emits
201 inclusive sample times. -/
theorem sampling_c1_counterexample :
    (samplingConfig 0 2 (JsNum.fin (1 / 100))).times.length ≠ 200 := by
  have hnot : ¬ ((2 : ℚ) - 0 ≤ 0) := by norm_num
  rw [samplingConfig_times_expand 0 2 (JsNum.fin (1 / 100)) hnot]
  rw [List.length_map, List.length_range, steps_for_default_case]
  decide

/-- Claim C1 (amended): for `startT = 0`, `endT = 2`, `precision = 0.01`
the planner takes exactly 200 steps and produces 201 sample times spanning
`[0, 2]` inclusive, with first sample `0` and last sample exactly `2`. -/
theorem sampling_c1_amended :
    (samplingConfig 0 2 (JsNum.fin (1 / 100))).times.length = 201 ∧
    (samplingConfig 0 2 (JsNum.fin (1 / 100))).totalSteps = 200 ∧
    (samplingConfig 0 2 (JsNum.fin (1 / 100))).times.head? = some 0 ∧
    (samplingConfig 0 2 (JsNum.fin (1 / 100))).times.getLast? = some 2 ∧
    ∀ x ∈ (samplingConfig 0 2 (JsNum.fin (1 / 100))).times, 0 ≤ x ∧ x ≤ 2 := by
  have hnot : ¬ ((2 : ℚ) - 0 ≤ 0) := by norm_num
  have htimes := samplingConfig_times_expand 0 2 (JsNum.fin (1 / 100)) hnot
  rw [steps_for_default_case] at htimes
  refine ⟨?_, ?_, ?_, ?_, ?_⟩
  · rw [htimes, List.length_map, List.length_range]
  · rw [samplingConfig_totalSteps_expand 0 2 (JsNum.fin (1 / 100)) hnot,
      steps_for_default_case]
  · rw [htimes, head_of_map_range]
    norm_num
  · rw [htimes, getLast_of_map_range]
    norm_num
  · rw [htimes]
    rintro x hx
    obtain ⟨i, hi, rfl⟩ := List.mem_map.mp hx
    have hi' : i < 201 := List.mem_range.mp hi
    have h200 : (i : ℚ) ≤ 200 := by exact_mod_cast Nat.lt_succ_iff.mp hi'
    have h0 : (0 : ℚ) ≤ (i : ℚ) := Nat.cast_nonneg i
    have hdiv0 : (0 : ℚ) ≤ (i : ℚ) / ((200 : ℕ) : ℚ) :=
      div_nonneg h0 (by norm_num)
    have hdiv1 : (i : ℚ) / ((200 : ℕ) : ℚ) ≤ 1 := by
      rw [div_le_one (by norm_num : (0 : ℚ) < ((200 : ℕ) : ℚ))]
      exact_mod_cast h200
    constructor
    · nlinarith
    · nlinarith

/-- Claim C4 (counterexample): the claim's formula
`steps = max 1 ⌈range / min precision (1/100)⌉` is wrong for a
non-positive precision.  At `startT = 0`, `endT = 2`, `precision = -1`
the formula predicts `max 1 ⌈2 / (-1)⌉ + 1 = 2` sample times, but the
planner substitutes the 0.01 default and produces 201. -/
theorem sampling_c4_counterexample :
    (samplingConfig 0 2 (JsNum.fin (-1))).times.length ≠
      max 1 (⌈((2 : ℚ) - 0) / min (-1 : ℚ) (1 / 100)⌉.toNat) + 1 := by
  have hnot : ¬ ((2 : ℚ) - 0 ≤ 0) := by norm_num
  have hsafe : samplingSafePrecision (JsNum.fin (-1)) = 1 / 100 := by
    norm_num [samplingSafePrecision]
  have hrhs : ((2 : ℚ) - 0) / min (-1 : ℚ) (1 / 100) = ((-2 : ℤ) : ℚ) := by
    rw [min_eq_left (by norm_num : (-1 : ℚ) ≤ 1 / 100)]
    norm_num
  have hsteps :
      max 1 (⌈((2 : ℚ) - 0) / min (samplingSafePrecision (JsNum.fin (-1))) (1 / 100)⌉.toNat)
        = 200 := by
    rw [hsafe]
    have h2 : ((2 : ℚ) - 0) / min (1 / 100 : ℚ) (1 / 100) = ((200 : ℤ) : ℚ) := by
      rw [min_self]
      norm_num
    rw [h2, Int.ceil_intCast]
    rfl
  rw [samplingConfig_times_expand 0 2 (JsNum.fin (-1)) hnot,
    List.length_map, List.length_range, hsteps, hrhs, Int.ceil_intCast]
  decide

/-- Claim C4 (amended): for every `startT`, `endT` and every finite
positive precision `p`: if `endT ≤ startT` the planner produces an empty
sequence; otherwise it produces `steps + 1` sample times with
`steps = max 1 ⌈(endT - startT) / min p (1/100)⌉`, the `i`-th sample equal to
`startT + (i / steps) * (endT - startT)`, the first sample `startT` and the
last sample exactly `endT`. -/
theorem sampling_c4_amended (startT endT p : ℚ) (hp : 0 < p) :
    SamplingSpec startT endT p := by
  have hsafe : samplingSafePrecision (JsNum.fin p) = p := by
    simp [samplingSafePrecision, hp]
  constructor
  · intro hle
    have h0 : endT - startT ≤ 0 := by linarith
    simp [samplingConfig, h0]
  · intro hlt
    have hnot : ¬ (endT - startT ≤ 0) := by linarith
    have htimes := samplingConfig_times_expand startT endT (JsNum.fin p) hnot
    rw [hsafe] at htimes
    set steps := max 1 (⌈(endT - startT) / min p (1 / 100)⌉.toNat) with hsteps
    have hstepspos : 0 < steps := lt_of_lt_of_le Nat.zero_lt_one (le_max_left _ _)
    have hcast : ((steps : ℕ) : ℚ) ≠ 0 := by
      exact_mod_cast Nat.pos_iff_ne_zero.mp hstepspos
    refine ⟨?_, ?_, ?_, ?_⟩
    · rw [htimes, List.length_map, List.length_range]
    · intro i hi
      rw [htimes, List.length_map, List.length_range] at hi
      rw [htimes, List.getElem?_map, List.getElem?_range hi]
      rfl
    · rw [htimes, head_of_map_range]
      norm_num
    · rw [htimes, getLast_of_map_range]
      have hone : ((steps : ℕ) : ℚ) / ((steps : ℕ) : ℚ) = 1 := div_self hcast
      rw [hone, one_mul]
      congr 1
      ring

/-- Witness for C4 (amended) at `startT = 0`, `endT = 2`, `p = 1/100`. -/
theorem sampling_c4_witness :
    0 < (1 / 100 : ℚ) ∧ SamplingSpec 0 2 (1 / 100) :=
  ⟨by norm_num, sampling_c4_amended 0 2 (1 / 100) (by norm_num)⟩

/-- Claim C10: if the requested precision is not a finite positive number
(NaN, an infinity, zero or negative), the planner silently substitutes the
default precision 0.01 and produces exactly the sequence it would produce
for precision 0.01. -/
theorem precisionFallback_c10 (startT endT : ℚ) (p : JsNum)
    (h : isPositiveFinite p = false) :
    samplingConfig startT endT p = samplingConfig startT endT (JsNum.fin (1 / 100)) := by
  have hp : samplingSafePrecision p = 1 / 100 := by
    cases p with
    | fin q =>
        simp only [isPositiveFinite, decide_eq_false_iff_not] at h
        simp [samplingSafePrecision, h]
    | nan => rfl
    | posInf => rfl
    | negInf => rfl
  have hdef : samplingSafePrecision (JsNum.fin (1 / 100)) = 1 / 100 := by
    norm_num [samplingSafePrecision]
  simp only [samplingConfig, hp, hdef]

/-- Witness for C10 at `p = NaN`, `startT = 0`, `endT = 1`. -/
theorem precisionFallback_c10_witness :
    isPositiveFinite JsNum.nan = false ∧
    samplingConfig 0 1 JsNum.nan = samplingConfig 0 1 (JsNum.fin (1 / 100)) :=
  ⟨rfl, precisionFallback_c10 0 1 JsNum.nan rfl⟩

-- ------------------------------------------------------------------
-- Theorems: evaluator cache claims
-- ------------------------------------------------------------------

/-- Updating a key and then looking it up yields the stored value. -/
theorem assocGet_assocSet_self {α β : Type} [DecidableEq α]
    (l : List (α × β)) (k : α) (v : β) :
    assocGet (assocSet l k v) k = some v := by
  induction l with
  | nil => simp [assocSet, assocGet]
  | cons hd tl ih =>
    obtain ⟨k1, v1⟩ := hd
    by_cases hk : k = k1
    · simp [assocSet, assocGet, hk]
    · simp [assocSet, assocGet, hk, ih]

/-- Setting an absent key appends the new binding at the end (JS `Map`
iteration order). -/
theorem assocSet_of_get_none {α β : Type} [DecidableEq α]
    (l : List (α × β)) (k : α) (v : β) (h : assocGet l k = none) :
    assocSet l k v = l ++ [(k, v)] := by
  induction l with
  | nil => simp [assocSet]
  | cons hd tl ih =>
    obtain ⟨k1, v1⟩ := hd
    by_cases hk : k = k1
    · simp [assocGet, hk] at h
    · simp only [assocGet, if_neg hk] at h
      simp [assocSet, if_neg hk, ih h]

/-- `timeEntries` distributes over appending caches. -/
theorem timeEntries_append (a b : Cache) :
    timeEntries (a ++ b) = timeEntries a ++ timeEntries b := by
  induction a with
  | nil => simp [timeEntries]
  | cons hd tl ih =>
    obtain ⟨m, tc⟩ := hd
    simp [timeEntries, ih]

/-- A call whose quantized key is already stored returns the stored matrix
and leaves the cache unchanged. -/
theorem getOrCreateMatrix_hit (powFn : CQ → ℚ → CQ) (ev : EvalData) (cache : Cache)
    (tq : ℚ) (mode : Mode) (tc : TimeCache) (M : M3)
    (h1 : assocGet cache mode = some tc) (h2 : assocGet tc (toFixed6 tq) = some M) :
    getOrCreateMatrix powFn ev cache (JsNum.fin tq) mode = (some M, cache) := by
  simp [getOrCreateMatrix, h1, h2]

/-- After any call at a finite time, the result is a stored matrix: the
returned cache maps `mode` to a time cache holding the quantized key, and
the call returned exactly that matrix. -/
theorem getOrCreateMatrix_cached (powFn : CQ → ℚ → CQ) (ev : EvalData) (cache : Cache)
    (tq : ℚ) (mode : Mode) :
    ∃ M tc1,
      (getOrCreateMatrix powFn ev cache (JsNum.fin tq) mode).1 = some M ∧
      assocGet (getOrCreateMatrix powFn ev cache (JsNum.fin tq) mode).2 mode = some tc1 ∧
      assocGet tc1 (toFixed6 tq) = some M := by
  rcases h1 : assocGet cache mode with _ | tc
  · refine ⟨computeMatrix powFn ev tq mode,
      assocSet [] (toFixed6 tq) (computeMatrix powFn ev tq mode), ?_, ?_, ?_⟩
    · simp [getOrCreateMatrix, h1, assocGet]
    · simp [getOrCreateMatrix, h1, assocGet, assocGet_assocSet_self]
    · simp [assocSet, assocGet]
  · rcases h2 : assocGet tc (toFixed6 tq) with _ | M
    · refine ⟨computeMatrix powFn ev tq mode,
        assocSet tc (toFixed6 tq) (computeMatrix powFn ev tq mode), ?_, ?_, ?_⟩
      · simp [getOrCreateMatrix, h1, h2]
      · simp [getOrCreateMatrix, h1, h2, assocGet_assocSet_self]
      · exact assocGet_assocSet_self tc (toFixed6 tq) _
    · exact ⟨M, tc, by simp [getOrCreateMatrix, h1, h2],
        by simp [getOrCreateMatrix, h1, h2], h2⟩

/-- Claim C3: for one evaluator instance, two finite times whose 6-decimal
quantizations agree and one interpolation mode, the second `getMatrixAt`
call is a cache hit: it returns exactly the matrix the first call produced
and leaves the cache untouched (no recomputation); the first call's result
is a stored (non-null) matrix. -/
theorem cacheIdempotent_c3 (powFn : CQ → ℚ → CQ) (ev : EvalData) (cache : Cache)
    (t1 t2 : ℚ) (mode : Mode) (h : toFixed6 t1 = toFixed6 t2) :
    getOrCreateMatrix powFn ev (getOrCreateMatrix powFn ev cache (JsNum.fin t1) mode).2
        (JsNum.fin t2) mode
      = ((getOrCreateMatrix powFn ev cache (JsNum.fin t1) mode).1,
         (getOrCreateMatrix powFn ev cache (JsNum.fin t1) mode).2) ∧
    ∃ M, (getOrCreateMatrix powFn ev cache (JsNum.fin t1) mode).1 = some M := by
  obtain ⟨M, tc1, hr, hc, ht⟩ := getOrCreateMatrix_cached powFn ev cache t1 mode
  refine ⟨?_, M, hr⟩
  have ht2 : assocGet tc1 (toFixed6 t2) = some M := h ▸ ht
  rw [getOrCreateMatrix_hit powFn ev _ t2 mode tc1 M hc ht2, hr]

/-- Witness for C3: the distinct times `0` and `1/10000000` quantize to the
same 6-decimal key; the second call on the concrete evaluator returns the
first call's stored matrix and does not change the cache. -/
theorem cacheIdempotent_c3_witness :
    toFixed6 0 = toFixed6 (1 / 10000000) ∧
    (getOrCreateMatrix (fun v _ => v) sampleEval
        (getOrCreateMatrix (fun v _ => v) sampleEval [] (JsNum.fin 0) Mode.pow).2
        (JsNum.fin (1 / 10000000)) Mode.pow
      = ((getOrCreateMatrix (fun v _ => v) sampleEval [] (JsNum.fin 0) Mode.pow).1,
         (getOrCreateMatrix (fun v _ => v) sampleEval [] (JsNum.fin 0) Mode.pow).2) ∧
     ∃ M, (getOrCreateMatrix (fun v _ => v) sampleEval [] (JsNum.fin 0) Mode.pow).1 = some M) := by
  have hkey : toFixed6 0 = toFixed6 (1 / 10000000) := by
    unfold toFixed6
    rw [show ((0 : ℚ) * 1000000 + 1 / 2) = 1 / 2 by norm_num,
      show ((1 / 10000000 : ℚ) * 1000000 + 1 / 2) = 3 / 5 by norm_num]
    rw [show ⌊(1 / 2 : ℚ)⌋ = 0 from Int.floor_eq_zero_iff.mpr (by norm_num),
      show ⌊(3 / 5 : ℚ)⌋ = 0 from Int.floor_eq_zero_iff.mpr (by norm_num)]
  exact ⟨hkey, cacheIdempotent_c3 (fun v _ => v) sampleEval [] 0 (1 / 10000000) Mode.pow hkey⟩

/-- Claim C9: for every interpolation mode and every non-finite time (NaN or
either infinity), `getMatrixAt` returns `null` and adds no `(mode, time)`
entry to the cache: the flattened set of time-keyed entries is unchanged. -/
theorem nonfiniteTime_c9 (powFn : CQ → ℚ → CQ) (ev : EvalData) (cache : Cache)
    (mode : Mode) (t : JsNum) (h : t.isFinite = false) :
    (getOrCreateMatrix powFn ev cache t mode).1 = none ∧
    timeEntries (getOrCreateMatrix powFn ev cache t mode).2 = timeEntries cache := by
  cases t with
  | fin q => simp [JsNum.isFinite] at h
  | nan | posInf | negInf =>
    rcases h1 : assocGet cache mode with _ | tc
    · have hset := assocSet_of_get_none cache mode ([] : TimeCache) h1
      constructor
      · simp [getOrCreateMatrix, h1]
      · simp [getOrCreateMatrix, h1, hset, timeEntries_append, timeEntries]
    · constructor <;> simp [getOrCreateMatrix, h1]

/-- Witness for C9 at `t = NaN` on the concrete evaluator with an empty
cache. -/
theorem nonfiniteTime_c9_witness :
    JsNum.isFinite JsNum.nan = false ∧
    ((getOrCreateMatrix (fun v _ => v) sampleEval [] JsNum.nan Mode.linear).1 = none ∧
     timeEntries (getOrCreateMatrix (fun v _ => v) sampleEval [] JsNum.nan Mode.linear).2
       = timeEntries []) :=
  ⟨rfl, nonfiniteTime_c9 (fun v _ => v) sampleEval [] Mode.linear JsNum.nan rfl⟩

-- ------------------------------------------------------------------
-- Theorems: wall contact detector claims
-- ------------------------------------------------------------------

/-- `resolveNormalDirection` computes exactly the spec-worded side sign:
sign of the primary offset beyond the `1e-6` noise threshold, else sign of
the secondary offset beyond noise, else the `+1` tie-break. -/
theorem resolveDir_eq_specSideSign (p : ℚ) (s : Option ℚ) :
    resolveNormalDirection p s = specSideSign p s := by
  have habs : ∀ r : ℚ, ¬ (1 / 1000000 < |r|) →
      ¬ (1 / 1000000 < r) ∧ ¬ (r < -(1 / 1000000)) := by
    intro r hr
    rw [not_lt, abs_le] at hr
    exact ⟨not_lt.mpr hr.2, not_lt.mpr hr.1⟩
  have hpos : ∀ r : ℚ, 1 / 1000000 < |r| → 0 ≤ r → 1 / 1000000 < r := by
    intro r hr1 hr2
    rwa [abs_of_nonneg hr2] at hr1
  have hneg : ∀ r : ℚ, 1 / 1000000 < |r| → ¬ (0 ≤ r) →
      r < -(1 / 1000000) ∧ ¬ (1 / 1000000 < r) := by
    intro r hr1 hr2
    push_neg at hr2
    rw [abs_of_neg hr2] at hr1
    constructor
    · linarith
    · push_neg
      linarith
  by_cases h1 : 1 / 1000000 < |p|
  · by_cases h2 : 0 ≤ p
    · simp only [resolveNormalDirection, specSideSign, if_pos h1, if_pos h2,
        if_pos (hpos p h1 h2)]
    · obtain ⟨hn1, hn2⟩ := hneg p h1 h2
      simp only [resolveNormalDirection, specSideSign, if_pos h1, if_neg h2,
        if_neg hn2, if_pos hn1]
  · obtain ⟨hp1, hp2⟩ := habs p h1
    rcases s with _ | q
    · simp only [resolveNormalDirection, specSideSign, if_neg h1, if_neg hp1, if_neg hp2]
    · by_cases h3 : 1 / 1000000 < |q|
      · by_cases h4 : 0 ≤ q
        · simp only [resolveNormalDirection, specSideSign, if_neg h1, if_neg hp1,
            if_neg hp2, if_pos h3, if_pos h4, if_pos (hpos q h3 h4)]
        · obtain ⟨hn1, hn2⟩ := hneg q h3 h4
          simp only [resolveNormalDirection, specSideSign, if_neg h1, if_neg hp1,
            if_neg hp2, if_pos h3, if_neg h4, if_neg hn2, if_pos hn1]
      · obtain ⟨hq1, hq2⟩ := habs q h3
        simp only [resolveNormalDirection, specSideSign, if_neg h1, if_neg hp1,
          if_neg hp2, if_neg h3, if_neg hq1, if_neg hq2]

/-- Claim C2: every contact event produced by any of the three detection
branches carries exactly the crossing-direction sign of the documented
convention (`ContactSignSpec`): `+1` when the branch's determining offset —
the hit endpoint's offset for the tolerance branches, the current offset for
the sign-crossing branch, falling back to the other endpoint's offset when
within noise — lies on the positive side of the wall, `-1` when it lies on
the negative side, and `+1` when the relevant offsets are within near-zero
magnitude.  The sign is pinned uniquely in every branch. -/
theorem contactSign_c2 (wall : Wall) (current : V3) (previous : Option V3)
    (c : WallContact) (hc : computeContact wall current previous = some c) :
    ContactSignSpec wall current previous c := by
  cases previous with
  | none =>
    by_cases h1 : |axisAccess wall.axis current - wall.position| ≤ CONTACT_TOLERANCE
    · simp only [computeContact, if_pos h1, Option.map_none', Option.some.injEq] at hc
      subst hc
      simp only [ContactSignSpec]
      exact resolveDir_eq_specSideSign _ none
    · simp only [computeContact, if_neg h1] at hc
      exact absurd hc (by simp)
  | some prev =>
    by_cases h1 : |axisAccess wall.axis current - wall.position| ≤ CONTACT_TOLERANCE
    · simp only [computeContact, if_pos h1, Option.map_some', Option.some.injEq] at hc
      subst hc
      simp only [ContactSignSpec, if_pos h1]
      exact resolveDir_eq_specSideSign _ _
    · by_cases h2 : |axisAccess wall.axis prev - wall.position| ≤ CONTACT_TOLERANCE
      · simp only [computeContact, if_neg h1, if_pos h2, Option.some.injEq] at hc
        subst hc
        simp only [ContactSignSpec, if_neg h1, if_pos h2]
        exact resolveDir_eq_specSideSign _ _
      · by_cases h3 : (axisAccess wall.axis prev - wall.position) *
            (axisAccess wall.axis current - wall.position) < 0
        · by_cases h4 : 1 / 100000000 <
              |axisAccess wall.axis current - axisAccess wall.axis prev|
          · simp only [computeContact, if_neg h1, if_neg h2, if_pos h3, if_pos h4,
              Option.some.injEq] at hc
            subst hc
            simp only [ContactSignSpec, if_neg h1, if_neg h2]
            exact resolveDir_eq_specSideSign _ _
          · simp only [computeContact, if_neg h1, if_neg h2, if_pos h3, if_neg h4] at hc
            exact absurd hc (by simp)
        · simp only [computeContact, if_neg h1, if_neg h2, if_neg h3] at hc
          exact absurd hc (by simp)

/-- Witness for C2 on the sign-crossing branch: wall 1 at `x = 0`, previous
point `(-1, 0, 0)`, current point `(1, 0, 0)`; the detector produces the
crossing contact with sign `+1` and the determinate sign convention holds
there. -/
theorem contactSign_c2_witness :
    computeContact ⟨1, Axis.x, 0⟩ ⟨1, 0, 0⟩ (some ⟨-1, 0, 0⟩)
        = some ⟨1, Axis.x, 0, ⟨0, 0, 0⟩, 1⟩ ∧
    ContactSignSpec ⟨1, Axis.x, 0⟩ ⟨1, 0, 0⟩ (some ⟨-1, 0, 0⟩)
      ⟨1, Axis.x, 0, ⟨0, 0, 0⟩, 1⟩ := by
  have hc : computeContact ⟨1, Axis.x, 0⟩ ⟨1, 0, 0⟩ (some ⟨-1, 0, 0⟩)
      = some ⟨1, Axis.x, 0, ⟨0, 0, 0⟩, 1⟩ := by
    norm_num [computeContact, axisAccess, setAxis, lerpV, clamp, CONTACT_TOLERANCE,
      resolveNormalDirection, abs_of_nonneg]
  exact ⟨hc, contactSign_c2 _ _ _ _ hc⟩

/-- Claim C5: for the wall at `x = 0`, previous point `(-1, 0, 0)` and
current point `(1, 0, 0)` (neither endpoint within the `0.07` tolerance),
the detector finds a contact via the sign-crossing branch with crossing
fraction `1/2`, contact point `(0, 0, 0)` and direction sign `+1`. -/
theorem wallCrossing_c5 :
    ¬ (|axisAccess Axis.x ⟨1, 0, 0⟩ - (0 : ℚ)| ≤ CONTACT_TOLERANCE) ∧
    ¬ (|axisAccess Axis.x ⟨-1, 0, 0⟩ - (0 : ℚ)| ≤ CONTACT_TOLERANCE) ∧
    ((0 : ℚ) - (-1)) / ((1 : ℚ) - (-1)) = 1 / 2 ∧
    computeContact ⟨0, Axis.x, 0⟩ ⟨1, 0, 0⟩ (some ⟨-1, 0, 0⟩)
      = some ⟨0, Axis.x, 0, ⟨0, 0, 0⟩, 1⟩ := by
  refine ⟨by norm_num [axisAccess, CONTACT_TOLERANCE],
    by norm_num [axisAccess, CONTACT_TOLERANCE], by norm_num, ?_⟩
  norm_num [computeContact, axisAccess, setAxis, lerpV, clamp, CONTACT_TOLERANCE,
    resolveNormalDirection, abs_of_nonneg]

-- ------------------------------------------------------------------
-- Theorems: preparation and path builder claims
-- ------------------------------------------------------------------

/-- The determinant recorded by the preparation step is the determinant of
the scaled-and-powered matrix, in every branch. -/
theorem matrixPreparation_determinantBefore (cbrt : ℚ → ℚ) (A : M3) (s e : ℚ) (n : Bool) :
    (matrixPreparation cbrt A s e n).determinantBefore =
      det3 (if (max 1 (jsRound e)).toNat = 1 then smulM A s
            else matPow (smulM A s) (max 1 (jsRound e)).toNat) := by
  simp only [matrixPreparation]
  split_ifs <;> rfl

/-- Claim C8: when normalization is requested and the prepared matrix's
determinant satisfies `|det| < 1e-8`, normalization is skipped (recorded as
failed, not applied), the effective matrix is exactly the pre-normalization
adjusted matrix, and the warning effect produces the user-visible warning
while resetting the normalize flag to disabled. -/
theorem normalizationFailure_c8 (cbrt : ℚ → ℚ) (A : M3) (s e : ℚ)
    (prevWarning : Option String)
    (h : |(matrixPreparation cbrt A s e true).determinantBefore| < 1 / 100000000) :
    (matrixPreparation cbrt A s e true).normalizationFailed = true ∧
    (matrixPreparation cbrt A s e true).normalizationApplied = false ∧
    (matrixPreparation cbrt A s e true).matrix =
      some ((matrixPreparation cbrt A s e true).adjustedMatrix) ∧
    normalizationEffect true (matrixPreparation cbrt A s e true) prevWarning
      = (some "Normalization requires a non-zero determinant. Matrix left unnormalized.",
         false) := by
  rw [matrixPreparation_determinantBefore, one_div] at h
  refine ⟨?_, ?_, ?_, ?_⟩ <;>
    simp [matrixPreparation, normalizationEffect, h]

/-- Witness for C8: the degenerate matrix `diag(1, 1, 0)` with scalar 1,
exponent 1 and normalization requested. -/
theorem normalizationFailure_c8_witness :
    |(matrixPreparation (fun q => q) degenerateA 1 1 true).determinantBefore|
      < 1 / 100000000 ∧
    ((matrixPreparation (fun q => q) degenerateA 1 1 true).normalizationFailed = true ∧
     (matrixPreparation (fun q => q) degenerateA 1 1 true).normalizationApplied = false ∧
     (matrixPreparation (fun q => q) degenerateA 1 1 true).matrix =
       some ((matrixPreparation (fun q => q) degenerateA 1 1 true).adjustedMatrix) ∧
     normalizationEffect true (matrixPreparation (fun q => q) degenerateA 1 1 true) none
       = (some "Normalization requires a non-zero determinant. Matrix left unnormalized.",
          false)) := by
  have hj : jsRound (1 : ℚ) = 1 := by
    unfold jsRound
    rw [show (1 : ℚ) + 1 / 2 = 3 / 2 by norm_num]
    exact Int.floor_eq_iff.mpr (by norm_num)
  have h : |(matrixPreparation (fun q => q) degenerateA 1 1 true).determinantBefore|
      < 1 / 100000000 := by
    rw [matrixPreparation_determinantBefore, hj]
    norm_num [degenerateA, det3, smulM]
  exact ⟨h, normalizationFailure_c8 (fun q => q) degenerateA 1 1 none h⟩

/-- Claim C6: in the path builder, when the sample list contains any null
matrix (and no earlier error short-circuits the cascade), the whole result
is discarded: no trajectory map is produced and the consumer receives the
pipeline-level calculation error for failed time samples. -/
theorem pathFailFast_c6 (ev : EvalData) (range : ℚ) (samples : List (Option M3))
    (vecs : List VectorObject) (f : ℚ → ℚ)
    (hr : 0 < range) (hs : none ∈ samples) :
    vectorTransformationsResult none none (some ev) range (some samples) vecs f
      = (none, some "Matrix generation failed at specific time samples.") := by
  have hany : samples.any (fun s => s.isNone) = true :=
    List.any_eq_true.mpr ⟨none, hs, rfl⟩
  simp only [vectorTransformationsResult, if_neg (not_le.mpr hr), if_pos hany]

/-- Witness for C6: a single null sample with a positive range on the
concrete evaluator. -/
theorem pathFailFast_c6_witness :
    (0 : ℚ) < 1 ∧ (none ∈ [(none : Option M3)]) ∧
    vectorTransformationsResult none none (some sampleEval) 1 (some [none]) []
        (fun q => q)
      = (none, some "Matrix generation failed at specific time samples.") :=
  ⟨by norm_num, List.mem_singleton.mpr rfl,
    pathFailFast_c6 sampleEval 1 [none] [] (fun q => q) (by norm_num)
      (List.mem_singleton.mpr rfl)⟩

/-- Claim C7: evaluator construction returns a null (unavailable) evaluator
whenever eigendecomposition throws (does not converge), eigenvalues or
eigenvectors are missing from the decomposition, or `P` is singular (the
inversion call throws) — the total `Option`-valued embedding lets no
exception escape the construction boundary — and with that null evaluator
the downstream pipeline reports exactly the whole-pipeline error
`Matrix unavailable.` instead of computing trajectories. -/
theorem constructionFailure_c7 (eigsCall : ExtCall EigsData)
    (invCall : CM3 → ExtCall CM3) (range : ℚ)
    (msamples : Option (List (Option M3))) (vecs : List VectorObject) (f : ℚ → ℚ)
    (h : eigsCall = ExtCall.throws ∨
      (∃ d, eigsCall = ExtCall.ok d ∧ (d.values = none ∨ d.eigenvectors = none)) ∨
      (∃ d vals evecs, eigsCall = ExtCall.ok d ∧ d.values = some vals ∧
        d.eigenvectors = some evecs ∧ invCall (transposeC evecs) = ExtCall.throws)) :
    createMatrixEvaluator eigsCall invCall = none ∧
    vectorTransformationsResult none none (createMatrixEvaluator eigsCall invCall)
        range msamples vecs f
      = (none, some "Matrix unavailable.") := by
  have hnone : createMatrixEvaluator eigsCall invCall = none := by
    rcases h with rfl | ⟨d, rfl, hv | hv⟩ | ⟨d, vals, evecs, rfl, hv, he, hinv⟩
    · rfl
    · obtain ⟨dv, de⟩ := d
      simp only at hv
      subst hv
      rfl
    · obtain ⟨dv, de⟩ := d
      simp only at hv
      subst hv
      cases dv <;> rfl
    · obtain ⟨dv, de⟩ := d
      simp only at hv he
      subst hv
      subst he
      simp only [createMatrixEvaluator]
      rw [hinv]
  refine ⟨hnone, ?_⟩
  rw [hnone]
  rfl

/-- Witness for C7: a throwing eigendecomposition. -/
theorem constructionFailure_c7_witness :
    createMatrixEvaluator ExtCall.throws (fun _ => ExtCall.throws) = none ∧
    vectorTransformationsResult none none
        (createMatrixEvaluator ExtCall.throws (fun _ => ExtCall.throws)) 1 none []
        (fun q => q)
      = (none, some "Matrix unavailable.") :=
  constructionFailure_c7 ExtCall.throws (fun _ => ExtCall.throws) 1 none []
    (fun q => q) (Or.inl rfl)

end MatrixPath
